import Mathlib

/-!
Shallow embedding of the donk configuration synchronization protocol
(`src/common.go`, `CfgCmd`): the manifest data model, the snapshot engine,
and the pull/push/init sync coordinator, together with theorems about the
protocol's decision table.

Filesystem and network effects are modelled by explicit state passing:
the local managed directory is an optional list of manifest files
(`none` = the directory does not exist), the local and remote manifests
are association lists keyed by entry name, and the remote object store
content for the entry is a list of files.  Each operation additionally
returns the trace of manifest/backend effects it performed, mirroring
the order of calls in the Go source.  Externals that the protocol only
threads through (sha256 of the serialized file list, clock, actor
identity) are parameters of a context record.
-/

/-- One file record of a manifest entry: `CfgManifestFile` in the source
(`path` slash-normalized relative path, `size` in bytes, content hash). -/
structure CfgManifestFile where
  path : String
  size : Int
  sha256 : String
deriving DecidableEq, Repr

/-- Per-name manifest entry: `CfgManifestEntry` in the source. -/
structure CfgManifestEntry where
  root : String
  revision : Int
  updatedAt : String
  updatedBy : String
  files : List CfgManifestFile
  manifestSHA256 : String
deriving DecidableEq, Repr

/-- The revision ledger: `CfgManifest` in the source.  The Go
`map[string]CfgManifestEntry` is modelled as an association list observed
only through `findEntry`; insertion shadows older pairs. -/
structure CfgManifest where
  version : Int
  algorithm : String
  entries : List (String × CfgManifestEntry)
deriving DecidableEq, Repr

def findEntryIn : List (String × CfgManifestEntry) → String → Option CfgManifestEntry
  | [], _ => none
  | (k, v) :: rest, n => if k = n then some v else findEntryIn rest n

/-- `remoteManifest.Entries[name]` / `localManifest.Entries[name]` lookup. -/
def CfgManifest.findEntry (m : CfgManifest) (n : String) : Option CfgManifestEntry :=
  findEntryIn m.entries n

/-- Go map assignment `manifest.Entries[name] = e`. -/
def CfgManifest.insertEntry (m : CfgManifest) (n : String) (e : CfgManifestEntry) : CfgManifest :=
  { m with entries := (n, e) :: m.entries }

/-- The `localRevision` / `remoteRevision` computation of `Pull` and `Push`:
the entry's revision when one exists for the name, `0` otherwise. -/
def revOf (m : CfgManifest) (n : String) : Int :=
  match m.findEntry n with
  | some e => e.revision
  | none => 0

/-- The path order used by `sort.Slice(files, ...)` in the source: compare
records by `path` only (lexicographic on the character sequence, the order
Go's `<` on strings computes). -/
def byPath (a b : CfgManifestFile) : Prop := a.path.data ≤ b.path.data

instance : DecidableRel byPath :=
  fun a b => inferInstanceAs (Decidable (a.path.data ≤ b.path.data))

instance : IsTotal CfgManifestFile byPath := ⟨fun a b => le_total a.path.data b.path.data⟩

instance : IsTrans CfgManifestFile byPath := ⟨fun _ _ _ h h' => le_trans h h'⟩

/-- The sort performed at the end of `buildCfgFileSnapshot` and inside
`isCfgManifestFilesEqual`. -/
def sortFiles (l : List CfgManifestFile) : List CfgManifestFile :=
  l.insertionSort byPath

/-- `buildCfgFileSnapshot`: the content fingerprint of the managed directory,
sorted by path.  A missing root directory yields the empty snapshot. -/
def buildCfgFileSnapshot : Option (List CfgManifestFile) → List CfgManifestFile
  | none => []
  | some fs => sortFiles fs

/-- Field-by-field comparison of one row in `isCfgManifestFilesEqual`. -/
def filesRowEq (a b : CfgManifestFile) : Bool :=
  a.path == b.path && a.size == b.size && a.sha256 == b.sha256

/-- `isCfgManifestFilesEqual`: equal lengths, then sort both sides by path
and compare row by row. -/
def isCfgManifestFilesEqual (a b : List CfgManifestFile) : Bool :=
  a.length == b.length &&
    ((sortFiles a).zip (sortFiles b)).all fun p => filesRowEq p.1 p.2

/-- `isLocalCfgEqualToManifest`: compare a fresh snapshot of the managed
directory with the file list an entry records. -/
def isLocalCfgEqualToManifest (dir : Option (List CfgManifestFile))
    (e : CfgManifestEntry) : Bool :=
  isCfgManifestFilesEqual (buildCfgFileSnapshot dir) e.files

/-- Externals threaded through `buildManifestEntry`: the sha256 of the
serialized file list, the RFC3339 timestamp, the `user@host` actor, and the
informational root path. -/
structure CfgCtx where
  hash : List CfgManifestFile → String
  updatedAt : String
  updatedBy : String
  root : String

/-- `buildManifestEntry`: assemble the new entry a push records. -/
def buildManifestEntry (ctx : CfgCtx) (revision : Int)
    (files : List CfgManifestFile) : CfgManifestEntry :=
  { root := ctx.root
    revision := revision
    updatedAt := ctx.updatedAt
    updatedBy := ctx.updatedBy
    files := files
    manifestSHA256 := ctx.hash files }

/-- The mutable world one sync invocation sees: the managed local directory
(`none` when absent on disk), the two manifests, and the object-store
content under the entry's remote path. -/
structure SyncState where
  localDir : Option (List CfgManifestFile)
  localManifest : CfgManifest
  remoteManifest : CfgManifest
  remoteData : List CfgManifestFile
deriving DecidableEq, Repr

/-- Manifest/backend effects, in the order the Go source performs them. -/
inductive SyncEvent
  | loadRemoteManifest
  | loadLocalManifest
  | downloadData
  | swapDir
  | saveLocalManifest
  | saveRemoteManifest
  | uploadData
  | makeLinks
  | runCmds
deriving DecidableEq, Repr

/-- Terminal outcome of `Pull`; the `err*` constructors are the non-nil
error returns of the Go function. -/
inductive PullOutcome
  | pulled
  | skippedNoRemoteEntryNoLocalFiles
  | skippedIdentical
  | errLocalAhead
  | errLocalFilesNoRemoteEntry
  | errDivergedSameRevision
  | errRemoteEntryMissing
  | errRemoteDataNotFound
deriving DecidableEq, Repr

/-- Whether the Go `Pull` returned `nil` (success) on this outcome. -/
def PullOutcome.isOk : PullOutcome → Bool
  | .pulled => true
  | .skippedNoRemoteEntryNoLocalFiles => true
  | .skippedIdentical => true
  | _ => false

structure PullResult where
  state : SyncState
  outcome : PullOutcome
  events : List SyncEvent
deriving DecidableEq, Repr

/-- The `doPull` closure of `Pull`: download the remote data into a staging
directory (failing when the backend holds nothing under the prefix),
atomically swap it into place, adopt the remote entry into the local
manifest, then materialize symlinks and run post-sync commands. -/
def doPull (name : String) (entry : CfgManifestEntry) (st : SyncState)
    (pre : List SyncEvent) : PullResult :=
  if st.remoteData.isEmpty then
    ⟨st, .errRemoteDataNotFound, pre ++ [.downloadData]⟩
  else
    ⟨{ st with
        localDir := some st.remoteData
        localManifest := st.localManifest.insertEntry name entry },
      .pulled,
      pre ++ [.downloadData, .swapDir, .saveLocalManifest, .makeLinks, .runCmds]⟩

/-- `CfgCmd.Pull`: the pull decision table over local/remote revisions and
entry existence. -/
def cfgPull (name : String) (st : SyncState) : PullResult :=
  let pre : List SyncEvent := [.loadRemoteManifest, .loadLocalManifest]
  if revOf st.localManifest name > revOf st.remoteManifest name then
    ⟨st, .errLocalAhead, pre⟩
  else if revOf st.localManifest name = revOf st.remoteManifest name then
    match st.remoteManifest.findEntry name with
    | none =>
      if (buildCfgFileSnapshot st.localDir).isEmpty then
        ⟨st, .skippedNoRemoteEntryNoLocalFiles, pre⟩
      else
        ⟨st, .errLocalFilesNoRemoteEntry, pre⟩
    | some e =>
      match st.localDir with
      | none => doPull name e st pre
      | some d =>
        if isLocalCfgEqualToManifest (some d) e then
          ⟨st, .skippedIdentical, pre⟩
        else
          ⟨st, .errDivergedSameRevision, pre⟩
  else
    match st.remoteManifest.findEntry name with
    | some e => doPull name e st pre
    | none => ⟨st, .errRemoteEntryMissing, pre⟩

/-- Terminal outcome of `Push`. -/
inductive PushOutcome
  | pushed (newRevision : Int)
  | skippedIdentical
  | errNoSourceDir
  | errLocalBehindRemote
deriving DecidableEq, Repr

/-- Whether the Go `Push` returned `nil` (success) on this outcome. -/
def PushOutcome.isOk : PushOutcome → Bool
  | .pushed _ => true
  | .skippedIdentical => true
  | _ => false

structure PushResult where
  state : SyncState
  outcome : PushOutcome
  events : List SyncEvent
deriving DecidableEq, Repr

/-- The skip test of `Push`: `remoteExists && isCfgManifestFilesEqual(files,
remoteEntry.Files)` — never skips when no remote entry exists. -/
def shouldSkipPush : Option CfgManifestEntry → List CfgManifestFile → Bool
  | some re, files => isCfgManifestFilesEqual files re.files
  | none, _ => false

/-- `CfgCmd.Push`: fail when the source directory is missing (before any
manifest read), fail when the local revision is behind, skip when the fresh
snapshot matches the remote entry, otherwise upload and record
`localRevision + 1` in both manifests. -/
def cfgPush (ctx : CfgCtx) (name : String) (st : SyncState) : PushResult :=
  match st.localDir with
  | none => ⟨st, .errNoSourceDir, []⟩
  | some d =>
    let pre : List SyncEvent := [.loadRemoteManifest, .loadLocalManifest]
    if revOf st.localManifest name < revOf st.remoteManifest name then
      ⟨st, .errLocalBehindRemote, pre⟩
    else
      let files := buildCfgFileSnapshot (some d)
      if shouldSkipPush (st.remoteManifest.findEntry name) files then
        ⟨st, .skippedIdentical, pre⟩
      else
        let newRevision := revOf st.localManifest name + 1
        let newEntry := buildManifestEntry ctx newRevision files
        ⟨{ st with
            remoteData := files
            localManifest := st.localManifest.insertEntry name newEntry
            remoteManifest := st.remoteManifest.insertEntry name newEntry },
          .pushed newRevision,
          pre ++ [.uploadData, .saveRemoteManifest, .saveLocalManifest]⟩

/-- State of the primary link path as observed by `Lstat` in `Init`. -/
inductive LinkState
  | missing
  | symlinkTo (target : String)
  | dirWith (files : List CfgManifestFile)
  | plainFile
deriving DecidableEq, Repr

structure InitState where
  primaryLink : LinkState
  sync : SyncState
deriving DecidableEq, Repr

/-- Terminal outcome of `Init`; every `err*` constructor is a non-nil error
return of the Go function — including `errAlreadyLinked`, the
"configuration init was skipped because the link path is already
initialized" error. -/
inductive InitOutcome
  | completed (push : PushOutcome)
  | errLinkMissing
  | errAlreadyLinked
  | errUnexpectedSymlink
  | errLinkNotDir
  | errLocalCfgDirExists
  | errPushFailed (push : PushOutcome)
deriving DecidableEq, Repr

/-- Whether the Go `Init` returned `nil` (success) on this outcome. -/
def InitOutcome.isOk : InitOutcome → Bool
  | .completed _ => true
  | _ => false

structure InitResult where
  state : InitState
  outcome : InitOutcome
  events : List SyncEvent
deriving DecidableEq, Repr

/-- `CfgCmd.Init`: migrate a plain directory at the primary link path into
sync management.  `cfgDirPath` is the absolute managed directory path the
symlink target is compared against. -/
def cfgInit (ctx : CfgCtx) (name : String) (cfgDirPath : String)
    (st : InitState) : InitResult :=
  match st.primaryLink with
  | .missing => ⟨st, .errLinkMissing, []⟩
  | .symlinkTo target =>
    if target = cfgDirPath then ⟨st, .errAlreadyLinked, []⟩
    else ⟨st, .errUnexpectedSymlink, []⟩
  | .plainFile => ⟨st, .errLinkNotDir, []⟩
  | .dirWith src =>
    if st.sync.localDir.isSome then ⟨st, .errLocalCfgDirExists, []⟩
    else
      let copied : SyncState := { st.sync with localDir := some src }
      let pr := cfgPush ctx name copied
      if pr.outcome.isOk then
        ⟨{ primaryLink := .symlinkTo cfgDirPath, sync := pr.state },
          .completed pr.outcome, pr.events ++ [.makeLinks, .runCmds]⟩
      else
        ⟨{ primaryLink := st.primaryLink, sync := pr.state },
          .errPushFailed pr.outcome, pr.events⟩

/-- `defaultCfgManifest`: version 1, sha256 algorithm, no entries. -/
def defaultCfgManifest : CfgManifest :=
  { version := 1, algorithm := "sha256", entries := [] }

/-- The post-parse defaulting at the end of `loadLocalCfgManifest`. -/
def normalizeLoadedManifest (m : CfgManifest) : CfgManifest :=
  { m with
    version := if m.version = 0 then 1 else m.version
    algorithm := if m.algorithm = "" then "sha256" else m.algorithm }

/-- `loadLocalCfgManifest`: a missing file and a whitespace-only file both
yield the default manifest; content the JSON decoder rejects is a fatal
parse error.  The source's `len(strings.TrimSpace(content)) == 0` test is
the all-whitespace test on the content's characters.  The JSON decoder
itself is external and passed as `parse`. -/
def loadLocalCfgManifest (parse : String → Option CfgManifest) :
    Option String → Except String CfgManifest
  | none => .ok defaultCfgManifest
  | some content =>
    if content.data.all Char.isWhitespace then .ok defaultCfgManifest
    else
      match parse content with
      | none => .error "failed to parse configuration manifest file"
      | some m => .ok (normalizeLoadedManifest m)

/-! ### Concrete states used by witnesses and counterexamples -/

def file1 : CfgManifestFile := ⟨"init.lua", 10, "aa11"⟩

def file2 : CfgManifestFile := ⟨"lua/set.lua", 4, "bb22"⟩

def ctx0 : CfgCtx :=
  ⟨fun _ => "hash0", "2025-01-01T00:00:00Z", "user@host", "/root/.donk/cfg/nvim"⟩

def manifest0 : CfgManifest := ⟨1, "sha256", []⟩

def entryRev (r : Int) (fs : List CfgManifestFile) : CfgManifestEntry :=
  ⟨"/root/.donk/cfg/nvim", r, "2025-01-01T00:00:00Z", "user@host", fs, "hash0"⟩

def manifestWith (e : CfgManifestEntry) : CfgManifest := ⟨1, "sha256", [("nvim", e)]⟩

/-- Local revision 2 ahead of an absent remote entry (revision 0). -/
def stAhead : SyncState :=
  { localDir := some [file1]
    localManifest := manifestWith (entryRev 2 [file1])
    remoteManifest := manifest0
    remoteData := [] }

/-- Same revision on both sides, remote entry present, but the managed
local directory is missing on disk. -/
def stSameRevNoDir : SyncState :=
  { localDir := none
    localManifest := manifestWith (entryRev 1 [file1])
    remoteManifest := manifestWith (entryRev 1 [file1])
    remoteData := [file1] }

/-- Same revision on both sides, remote entry present, local directory
present with matching content. -/
def stSameRevDir : SyncState :=
  { localDir := some [file1]
    localManifest := manifestWith (entryRev 1 [file1])
    remoteManifest := manifestWith (entryRev 1 [file1])
    remoteData := [file1] }

/-- Same revision 2, remote entry present, local directory missing;
two files recorded remotely. -/
def stSameRev2NoDir : SyncState :=
  { localDir := none
    localManifest := manifestWith (entryRev 2 [file1, file2])
    remoteManifest := manifestWith (entryRev 2 [file1, file2])
    remoteData := [file1, file2] }

/-- Local revision 0, remote entry at revision 1 with two files. -/
def stBehind : SyncState :=
  { localDir := some []
    localManifest := manifest0
    remoteManifest := manifestWith (entryRev 1 [file1, file2])
    remoteData := [file1, file2] }

/-- Fresh push state: local directory with one file, no manifest entries
anywhere, empty remote store. -/
def stFreshPush : SyncState :=
  { localDir := some [file1]
    localManifest := manifest0
    remoteManifest := manifest0
    remoteData := [] }

/-- An existing but empty managed directory, no manifest entries. -/
def stEmptyDirPush : SyncState :=
  { localDir := some []
    localManifest := manifest0
    remoteManifest := manifest0
    remoteData := [] }

/-- Push source directory missing on disk. -/
def stNoSourceDir : SyncState :=
  { localDir := none
    localManifest := manifestWith (entryRev 1 [file1])
    remoteManifest := manifestWith (entryRev 1 [file1])
    remoteData := [file1] }

/-- Init state whose primary link path is already a symlink resolving to
the managed directory. -/
def stLinked : InitState :=
  { primaryLink := .symlinkTo "/root/.donk/cfg/nvim"
    sync := { localDir := none
              localManifest := manifest0
              remoteManifest := manifest0
              remoteData := [] } }

/-- Two file lists that are equal as sets of `(path, size, sha256)` triples
but contain a duplicated path. -/
def dupA : List CfgManifestFile := [⟨"p", 1, "x"⟩, ⟨"p", 2, "y"⟩]

def dupB : List CfgManifestFile := [⟨"p", 2, "y"⟩, ⟨"p", 1, "x"⟩]

/-! ### Helper lemmas about the snapshot order and file-list equality -/

/-- Strict path order; used to show path-sorted lists with no duplicate
paths are rigid. -/
def pathLT (a b : CfgManifestFile) : Prop := a.path.data < b.path.data

instance : IsAntisymm CfgManifestFile pathLT :=
  ⟨fun _ _ h h' => absurd h' (lt_asymm h)⟩

theorem str_eq_of_data_eq : {s t : String} → s.data = t.data → s = t
  | ⟨_⟩, ⟨_⟩, rfl => rfl

theorem filesRowEq_iff (a b : CfgManifestFile) : filesRowEq a b = true ↔ a = b := by
  cases a; cases b
  simp [filesRowEq, CfgManifestFile.mk.injEq, and_assoc]

theorem zip_all_rowEq :
    ∀ {l₁ l₂ : List CfgManifestFile}, l₁.length = l₂.length →
      ((((l₁.zip l₂).all fun p => filesRowEq p.1 p.2) = true) ↔ l₁ = l₂)
  | [], [], _ => by simp
  | [], _ :: _, h => by simp at h
  | _ :: _, [], h => by simp at h
  | a :: as, b :: bs, h => by
    have ih := @zip_all_rowEq as bs (by simpa using h)
    simp [filesRowEq_iff, ih]

theorem sortFiles_perm (l : List CfgManifestFile) : (sortFiles l).Perm l :=
  List.perm_insertionSort _ _

theorem sortFiles_sorted (l : List CfgManifestFile) : List.Sorted byPath (sortFiles l) :=
  List.sorted_insertionSort _ _

theorem sortFiles_eq_of_sorted {l : List CfgManifestFile}
    (h : List.Sorted byPath l) : sortFiles l = l :=
  h.insertionSort_eq

theorem length_sortFiles (l : List CfgManifestFile) : (sortFiles l).length = l.length :=
  (sortFiles_perm l).length_eq

theorem isCfgManifestFilesEqual_iff_sorted_eq (a b : List CfgManifestFile) :
    isCfgManifestFilesEqual a b = true ↔ sortFiles a = sortFiles b := by
  simp only [isCfgManifestFilesEqual, Bool.and_eq_true, beq_iff_eq]
  constructor
  · rintro ⟨hlen, hall⟩
    exact (zip_all_rowEq (by rw [length_sortFiles, length_sortFiles, hlen])).1 hall
  · intro hs
    have hlen : a.length = b.length := by
      rw [← length_sortFiles a, ← length_sortFiles b, hs]
    exact ⟨hlen, (zip_all_rowEq (by rw [hs])).2 hs⟩

theorem isCfgManifestFilesEqual_refl (l : List CfgManifestFile) :
    isCfgManifestFilesEqual l l = true :=
  (isCfgManifestFilesEqual_iff_sorted_eq l l).2 rfl

theorem isCfgManifestFilesEqual_comm (a b : List CfgManifestFile) :
    isCfgManifestFilesEqual a b = isCfgManifestFilesEqual b a := by
  rw [Bool.eq_iff_iff, isCfgManifestFilesEqual_iff_sorted_eq,
    isCfgManifestFilesEqual_iff_sorted_eq]
  exact eq_comm

theorem sorted_pathLT_of_nodup {l : List CfgManifestFile}
    (hs : List.Sorted byPath l) (hn : (l.map CfgManifestFile.path).Nodup) :
    List.Sorted pathLT l := by
  have hp : l.Pairwise fun a b => a.path ≠ b.path := List.pairwise_map.1 hn
  have hall : l.Pairwise fun a b => byPath a b ∧ a.path ≠ b.path := hs.and hp
  exact hall.imp fun h =>
    lt_of_le_of_ne h.1 fun hd => h.2 (str_eq_of_data_eq hd)

theorem files_equal_iff_perm_of_nodup {a b : List CfgManifestFile}
    (ha : (a.map CfgManifestFile.path).Nodup)
    (hb : (b.map CfgManifestFile.path).Nodup) :
    isCfgManifestFilesEqual a b = true ↔ a.Perm b := by
  rw [isCfgManifestFilesEqual_iff_sorted_eq]
  constructor
  · intro hs
    exact (sortFiles_perm a).symm.trans (hs ▸ sortFiles_perm b)
  · intro hperm
    have hpermS : (sortFiles a).Perm (sortFiles b) :=
      (sortFiles_perm a).trans (hperm.trans (sortFiles_perm b).symm)
    have hna : ((sortFiles a).map CfgManifestFile.path).Nodup :=
      (((sortFiles_perm a).map CfgManifestFile.path).nodup_iff).2 ha
    have hnb : ((sortFiles b).map CfgManifestFile.path).Nodup :=
      (((sortFiles_perm b).map CfgManifestFile.path).nodup_iff).2 hb
    exact List.eq_of_perm_of_sorted hpermS
      (sorted_pathLT_of_nodup (sortFiles_sorted a) hna)
      (sorted_pathLT_of_nodup (sortFiles_sorted b) hnb)

theorem findEntry_insertEntry_self (m : CfgManifest) (n : String)
    (e : CfgManifestEntry) : (m.insertEntry n e).findEntry n = some e := by
  simp [CfgManifest.insertEntry, CfgManifest.findEntry, findEntryIn]

theorem revOf_insertEntry_self (m : CfgManifest) (n : String)
    (e : CfgManifestEntry) : revOf (m.insertEntry n e) n = e.revision := by
  simp [revOf, findEntry_insertEntry_self]

/-- The two terminal branches of a push whose source directory exists and
whose local revision is not behind: skip. -/
theorem cfgPush_skip_branch (ctx : CfgCtx) (name : String) (st : SyncState)
    (d : List CfgManifestFile)
    (hdir : st.localDir = some d)
    (hrev : ¬ revOf st.localManifest name < revOf st.remoteManifest name)
    (hskip : shouldSkipPush (st.remoteManifest.findEntry name)
        (buildCfgFileSnapshot (some d)) = true) :
    cfgPush ctx name st =
      ⟨st, .skippedIdentical, [.loadRemoteManifest, .loadLocalManifest]⟩ := by
  simp [cfgPush, hdir, hrev, hskip]

/-- The two terminal branches of a push whose source directory exists and
whose local revision is not behind: transfer and record `localRevision + 1`. -/
theorem cfgPush_push_branch (ctx : CfgCtx) (name : String) (st : SyncState)
    (d : List CfgManifestFile)
    (hdir : st.localDir = some d)
    (hrev : ¬ revOf st.localManifest name < revOf st.remoteManifest name)
    (hskip : shouldSkipPush (st.remoteManifest.findEntry name)
        (buildCfgFileSnapshot (some d)) = false) :
    cfgPush ctx name st =
      ⟨{ st with
          remoteData := buildCfgFileSnapshot (some d)
          localManifest := st.localManifest.insertEntry name
            (buildManifestEntry ctx (revOf st.localManifest name + 1)
              (buildCfgFileSnapshot (some d)))
          remoteManifest := st.remoteManifest.insertEntry name
            (buildManifestEntry ctx (revOf st.localManifest name + 1)
              (buildCfgFileSnapshot (some d))) },
        .pushed (revOf st.localManifest name + 1),
        [.loadRemoteManifest, .loadLocalManifest, .uploadData, .saveRemoteManifest,
         .saveLocalManifest]⟩ := by
  simp [cfgPush, hdir, hrev, hskip]

/-- Claim C4: a Pull whose local revision is strictly greater than the
remote revision fails with the push-first conflict and performs zero
filesystem mutation: its result state is the input state and its only
effects are the two manifest reads. -/
theorem cfg_pull_local_ahead_conflict (name : String) (st : SyncState)
    (h : revOf st.localManifest name > revOf st.remoteManifest name) :
    cfgPull name st =
      ⟨st, .errLocalAhead, [.loadRemoteManifest, .loadLocalManifest]⟩ := by
  simp [cfgPull, h]

theorem cfg_pull_local_ahead_conflict_witness :
    cfgPull "nvim" stAhead =
      ⟨stAhead, .errLocalAhead, [.loadRemoteManifest, .loadLocalManifest]⟩ :=
  cfg_pull_local_ahead_conflict "nvim" stAhead (by decide)

/-- Claim C10: a Push whose local managed directory does not exist fails
with the missing-source-directory error before reading either manifest and
before contacting the backend (empty effect trace), leaving local and
remote state unchanged. -/
theorem cfg_push_missing_source_dir (ctx : CfgCtx) (name : String)
    (st : SyncState) (h : st.localDir = none) :
    cfgPush ctx name st = ⟨st, .errNoSourceDir, []⟩ := by
  simp [cfgPush, h]

theorem cfg_push_missing_source_dir_witness :
    cfgPush ctx0 "nvim" stNoSourceDir = ⟨stNoSourceDir, .errNoSourceDir, []⟩ :=
  cfg_push_missing_source_dir ctx0 "nvim" stNoSourceDir rfl

/-- Claim C7: loading the local manifest is total in the three cases —
a missing file yields the default manifest (version 1, algorithm sha256,
no entries), a present-but-whitespace-only (or empty) file yields the same
default, and content the JSON decoder rejects is a fatal parse error. -/
theorem cfg_load_local_manifest_total (parse : String → Option CfgManifest) :
    defaultCfgManifest = ⟨1, "sha256", []⟩
      ∧ loadLocalCfgManifest parse none = .ok defaultCfgManifest
      ∧ (∀ s : String, s.data.all Char.isWhitespace = true →
          loadLocalCfgManifest parse (some s) = .ok defaultCfgManifest)
      ∧ (∀ s : String, s.data.all Char.isWhitespace = false → parse s = none →
          loadLocalCfgManifest parse (some s) =
            .error "failed to parse configuration manifest file") := by
  refine ⟨rfl, rfl, ?_, ?_⟩
  · intro s hs
    simp [loadLocalCfgManifest, hs]
  · intro s hs hp
    simp [loadLocalCfgManifest, hs, hp]

theorem cfg_load_local_manifest_total_witness :
    defaultCfgManifest = ⟨1, "sha256", []⟩
      ∧ loadLocalCfgManifest (fun _ => none) none = .ok defaultCfgManifest
      ∧ loadLocalCfgManifest (fun _ => none) (some " ") = .ok defaultCfgManifest
      ∧ loadLocalCfgManifest (fun _ => none) (some "x") =
          .error "failed to parse configuration manifest file" := by
  have h := cfg_load_local_manifest_total (fun _ => none)
  exact ⟨h.1, h.2.1, h.2.2.1 " " (by decide), h.2.2.2 "x" (by decide) rfl⟩

/-- Claim C6 (corrected): when the primary link path is already a symlink
whose resolved target is the managed local directory, Init performs no
filesystem mutation, no push and no command execution, but it returns the
"already initialized" condition as an error (non-nil return), not as a
success. -/
theorem cfg_init_already_linked_noop (ctx : CfgCtx) (name cfgDirPath : String)
    (st : InitState) (h : st.primaryLink = .symlinkTo cfgDirPath) :
    cfgInit ctx name cfgDirPath st = ⟨st, .errAlreadyLinked, []⟩ := by
  simp [cfgInit, h]

theorem cfg_init_already_linked_noop_witness :
    cfgInit ctx0 "nvim" "/root/.donk/cfg/nvim" stLinked =
      ⟨stLinked, .errAlreadyLinked, []⟩ :=
  cfg_init_already_linked_noop ctx0 "nvim" "/root/.donk/cfg/nvim" stLinked rfl

/-- Claim C6 counterexample: at a concrete state whose primary link already
resolves to the managed directory, Init signals "already initialized"
through the error channel — the Go function returns a non-nil error, so
the invocation does not succeed as the claim states. -/
theorem cfg_init_already_linked_error_cex :
    (cfgInit ctx0 "nvim" "/root/.donk/cfg/nvim" stLinked).outcome = .errAlreadyLinked
      ∧ (cfgInit ctx0 "nvim" "/root/.donk/cfg/nvim" stLinked).outcome.isOk = false
      ∧ (cfgInit ctx0 "nvim" "/root/.donk/cfg/nvim" stLinked).state = stLinked
      ∧ (cfgInit ctx0 "nvim" "/root/.donk/cfg/nvim" stLinked).events = [] :=
  ⟨rfl, rfl, rfl, rfl⟩

/-- Claim C1 (corrected): for a Pull at equal local and remote revisions
with an existing remote entry **and an existing local managed directory**,
Pull compares the fresh local snapshot with the entry's file list: equal
means a successful no-op with no transfer, unequal means the
same-revision-divergence conflict; in both cases the result state is the
input state (no mutation of directory or local manifest). -/
theorem cfg_pull_same_rev_existing_dir_decision
    (name : String) (st : SyncState) (e : CfgManifestEntry)
    (d : List CfgManifestFile)
    (hrev : revOf st.localManifest name = revOf st.remoteManifest name)
    (he : st.remoteManifest.findEntry name = some e)
    (hdir : st.localDir = some d) :
    cfgPull name st =
      ⟨st,
        if isLocalCfgEqualToManifest (some d) e then .skippedIdentical
        else .errDivergedSameRevision,
        [.loadRemoteManifest, .loadLocalManifest]⟩ := by
  by_cases hE : isLocalCfgEqualToManifest (some d) e
  · simp [cfgPull, hrev, he, hdir, hE]
  · simp [cfgPull, hrev, he, hdir, hE]

theorem cfg_pull_same_rev_existing_dir_decision_witness :
    cfgPull "nvim" stSameRevDir =
      ⟨stSameRevDir, .skippedIdentical, [.loadRemoteManifest, .loadLocalManifest]⟩ := by
  rw [cfg_pull_same_rev_existing_dir_decision "nvim" stSameRevDir (entryRev 1 [file1])
    [file1] (by decide) (by decide) rfl]
  decide

/-- Claim C1 counterexample: equal revisions, remote entry present, but the
managed directory is missing on disk — the local snapshot (empty) differs
from the entry's file list, yet Pull performs the full transfer and mutates
local state instead of failing with the same-revision-divergence conflict. -/
theorem cfg_pull_same_rev_missing_dir_cex :
    revOf stSameRevNoDir.localManifest "nvim" = revOf stSameRevNoDir.remoteManifest "nvim"
      ∧ stSameRevNoDir.remoteManifest.findEntry "nvim" = some (entryRev 1 [file1])
      ∧ isCfgManifestFilesEqual (buildCfgFileSnapshot stSameRevNoDir.localDir)
          (entryRev 1 [file1]).files = false
      ∧ (cfgPull "nvim" stSameRevNoDir).outcome = .pulled
      ∧ (cfgPull "nvim" stSameRevNoDir).state ≠ stSameRevNoDir := by
  exact ⟨by decide, by decide, by decide, by decide, by decide⟩

/-- Claim C9: for a Pull at equal revisions with an existing remote entry
whose backend data is present, when the local managed directory does not
exist on disk, Pull performs the full transfer — download, atomic swap,
adoption of the remote entry into the local manifest, symlinks, post-sync
commands — rather than failing or skipping. -/
theorem cfg_pull_same_rev_missing_dir_full_transfer
    (name : String) (st : SyncState) (e : CfgManifestEntry)
    (hrev : revOf st.localManifest name = revOf st.remoteManifest name)
    (he : st.remoteManifest.findEntry name = some e)
    (hdir : st.localDir = none)
    (hne : st.remoteData ≠ []) :
    cfgPull name st =
      ⟨{ st with
          localDir := some st.remoteData
          localManifest := st.localManifest.insertEntry name e },
        .pulled,
        [.loadRemoteManifest, .loadLocalManifest, .downloadData, .swapDir,
         .saveLocalManifest, .makeLinks, .runCmds]⟩ := by
  simp [cfgPull, hrev, he, hdir, doPull, List.isEmpty_iff, hne]

theorem cfg_pull_same_rev_missing_dir_full_transfer_witness :
    cfgPull "nvim" stSameRev2NoDir =
      ⟨{ stSameRev2NoDir with
          localDir := some stSameRev2NoDir.remoteData
          localManifest := stSameRev2NoDir.localManifest.insertEntry "nvim"
            (entryRev 2 [file1, file2]) },
        .pulled,
        [.loadRemoteManifest, .loadLocalManifest, .downloadData, .swapDir,
         .saveLocalManifest, .makeLinks, .runCmds]⟩ :=
  cfg_pull_same_rev_missing_dir_full_transfer "nvim" stSameRev2NoDir
    (entryRev 2 [file1, file2]) (by decide) (by decide) rfl (by decide)

/-- Claim C5: a Pull whose local revision is strictly behind an existing
remote entry — with the backend holding that entry's (sorted, non-empty)
file list — succeeds and fully replaces local content: the post-pull
snapshot of the managed directory equals the remote entry's file list
exactly, and the local manifest entry becomes the remote entry itself, so
the local revision equals the remote revision afterwards. -/
theorem cfg_pull_behind_existing_entry_replaces
    (name : String) (st : SyncState) (e : CfgManifestEntry)
    (he : st.remoteManifest.findEntry name = some e)
    (hrev : revOf st.localManifest name < revOf st.remoteManifest name)
    (hdata : st.remoteData = e.files)
    (hne : e.files ≠ [])
    (hsorted : List.Sorted byPath e.files) :
    (cfgPull name st).outcome = .pulled
      ∧ buildCfgFileSnapshot (cfgPull name st).state.localDir = e.files
      ∧ (cfgPull name st).state.localManifest.findEntry name = some e
      ∧ revOf (cfgPull name st).state.localManifest name
          = revOf st.remoteManifest name := by
  have hnotgt : ¬ revOf st.localManifest name > revOf st.remoteManifest name :=
    lt_asymm hrev
  have hneq : revOf st.localManifest name ≠ revOf st.remoteManifest name :=
    ne_of_lt hrev
  have hres : cfgPull name st =
      ⟨{ st with
          localDir := some e.files
          localManifest := st.localManifest.insertEntry name e },
        .pulled,
        [.loadRemoteManifest, .loadLocalManifest, .downloadData, .swapDir,
         .saveLocalManifest, .makeLinks, .runCmds]⟩ := by
    simp [cfgPull, hnotgt, hneq, he, doPull, List.isEmpty_iff, hdata, hne]
  rw [hres]
  refine ⟨rfl, ?_, ?_, ?_⟩
  · show buildCfgFileSnapshot (some e.files) = e.files
    simp [buildCfgFileSnapshot, sortFiles_eq_of_sorted hsorted]
  · exact findEntry_insertEntry_self st.localManifest name e
  · show revOf (st.localManifest.insertEntry name e) name = revOf st.remoteManifest name
    rw [revOf_insertEntry_self]
    simp [revOf, he]

theorem cfg_pull_behind_existing_entry_replaces_witness :
    (cfgPull "nvim" stBehind).outcome = .pulled
      ∧ buildCfgFileSnapshot (cfgPull "nvim" stBehind).state.localDir
          = (entryRev 1 [file1, file2]).files
      ∧ (cfgPull "nvim" stBehind).state.localManifest.findEntry "nvim"
          = some (entryRev 1 [file1, file2])
      ∧ revOf (cfgPull "nvim" stBehind).state.localManifest "nvim"
          = revOf stBehind.remoteManifest "nvim" :=
  cfg_pull_behind_existing_entry_replaces "nvim" stBehind (entryRev 1 [file1, file2])
    (by decide) (by decide) rfl (by decide) (by decide)

/-- Claim C2: a Push whose local revision is not behind the remote and
which does not skip records `localRevision + 1` — the locally recorded
revision, not the remote one — and stores the identical new manifest entry
into both the remote manifest and the local manifest. -/
theorem cfg_push_revision_increment
    (ctx : CfgCtx) (name : String) (st : SyncState) (d : List CfgManifestFile)
    (hdir : st.localDir = some d)
    (hrev : ¬ revOf st.localManifest name < revOf st.remoteManifest name)
    (hskip : shouldSkipPush (st.remoteManifest.findEntry name)
        (buildCfgFileSnapshot (some d)) = false) :
    (cfgPush ctx name st).outcome = .pushed (revOf st.localManifest name + 1)
      ∧ (cfgPush ctx name st).state.localManifest.findEntry name
          = some (buildManifestEntry ctx (revOf st.localManifest name + 1)
              (buildCfgFileSnapshot (some d)))
      ∧ (cfgPush ctx name st).state.remoteManifest.findEntry name
          = some (buildManifestEntry ctx (revOf st.localManifest name + 1)
              (buildCfgFileSnapshot (some d))) := by
  rw [cfgPush_push_branch ctx name st d hdir hrev hskip]
  exact ⟨rfl,
    findEntry_insertEntry_self st.localManifest name _,
    findEntry_insertEntry_self st.remoteManifest name _⟩

theorem cfg_push_revision_increment_witness :
    (cfgPush ctx0 "nvim" stFreshPush).outcome
        = .pushed (revOf stFreshPush.localManifest "nvim" + 1)
      ∧ (cfgPush ctx0 "nvim" stFreshPush).state.localManifest.findEntry "nvim"
          = some (buildManifestEntry ctx0 (revOf stFreshPush.localManifest "nvim" + 1)
              (buildCfgFileSnapshot (some [file1])))
      ∧ (cfgPush ctx0 "nvim" stFreshPush).state.remoteManifest.findEntry "nvim"
          = some (buildManifestEntry ctx0 (revOf stFreshPush.localManifest "nvim" + 1)
              (buildCfgFileSnapshot (some [file1]))) :=
  cfg_push_revision_increment ctx0 "nvim" stFreshPush [file1] rfl (by decide) (by decide)

/-- Claim C3 (corrected): a Push whose source directory exists and whose
local revision is not behind skips exactly when a remote entry exists
**and** the fresh snapshot matches its file list — when no remote entry
exists Push never skips, even with an empty snapshot.  A skip leaves the
state unchanged, and after a successful push a second Push with no
intervening modification is a no-op: it skips, leaves the state unchanged,
and both recorded revisions stay at the pushed value. -/
theorem cfg_push_skip_iff_and_idempotent
    (ctx ctx' : CfgCtx) (name : String) (st : SyncState) (d : List CfgManifestFile)
    (hdir : st.localDir = some d)
    (hrev : ¬ revOf st.localManifest name < revOf st.remoteManifest name) :
    ((cfgPush ctx name st).outcome = .skippedIdentical
        ↔ shouldSkipPush (st.remoteManifest.findEntry name)
            (buildCfgFileSnapshot (some d)) = true)
      ∧ ((cfgPush ctx name st).outcome = .skippedIdentical →
          (cfgPush ctx name st).state = st)
      ∧ (∀ v, (cfgPush ctx name st).outcome = .pushed v →
          cfgPush ctx' name (cfgPush ctx name st).state =
              ⟨(cfgPush ctx name st).state, .skippedIdentical,
                [.loadRemoteManifest, .loadLocalManifest]⟩
            ∧ revOf (cfgPush ctx name st).state.localManifest name = v
            ∧ revOf (cfgPush ctx name st).state.remoteManifest name = v) := by
  by_cases hS : shouldSkipPush (st.remoteManifest.findEntry name)
      (buildCfgFileSnapshot (some d)) = true
  · rw [cfgPush_skip_branch ctx name st d hdir hrev hS]
    refine ⟨by simp [hS], fun _ => rfl, ?_⟩
    intro v hv
    exact absurd hv (by simp)
  · have hS' : shouldSkipPush (st.remoteManifest.findEntry name)
        (buildCfgFileSnapshot (some d)) = false := by
      simpa using hS
    rw [cfgPush_push_branch ctx name st d hdir hrev hS']
    refine ⟨by simp [hS'], by simp, ?_⟩
    intro v hv
    have hv' : revOf st.localManifest name + 1 = v := by
      simpa using hv
    subst hv'
    have hdir1 : ({ st with
        remoteData := buildCfgFileSnapshot (some d)
        localManifest := st.localManifest.insertEntry name
          (buildManifestEntry ctx (revOf st.localManifest name + 1)
            (buildCfgFileSnapshot (some d)))
        remoteManifest := st.remoteManifest.insertEntry name
          (buildManifestEntry ctx (revOf st.localManifest name + 1)
            (buildCfgFileSnapshot (some d))) } : SyncState).localDir = some d := hdir
    have hrev1 : ¬ revOf (st.localManifest.insertEntry name
          (buildManifestEntry ctx (revOf st.localManifest name + 1)
            (buildCfgFileSnapshot (some d)))) name
        < revOf (st.remoteManifest.insertEntry name
          (buildManifestEntry ctx (revOf st.localManifest name + 1)
            (buildCfgFileSnapshot (some d)))) name := by
      rw [revOf_insertEntry_self, revOf_insertEntry_self]
      exact lt_irrefl _
    have hskip1 : shouldSkipPush
        ((st.remoteManifest.insertEntry name
          (buildManifestEntry ctx (revOf st.localManifest name + 1)
            (buildCfgFileSnapshot (some d)))).findEntry name)
        (buildCfgFileSnapshot (some d)) = true := by
      rw [findEntry_insertEntry_self]
      exact isCfgManifestFilesEqual_refl (buildCfgFileSnapshot (some d))
    rw [cfgPush_skip_branch ctx' name _ d hdir1 hrev1 hskip1]
    exact ⟨rfl, revOf_insertEntry_self st.localManifest name _,
      revOf_insertEntry_self st.remoteManifest name _⟩

theorem cfg_push_skip_iff_and_idempotent_witness :
    cfgPush ctx0 "nvim" (cfgPush ctx0 "nvim" stFreshPush).state =
        ⟨(cfgPush ctx0 "nvim" stFreshPush).state, .skippedIdentical,
          [.loadRemoteManifest, .loadLocalManifest]⟩
      ∧ revOf (cfgPush ctx0 "nvim" stFreshPush).state.localManifest "nvim" = 1
      ∧ revOf (cfgPush ctx0 "nvim" stFreshPush).state.remoteManifest "nvim" = 1 :=
  (cfg_push_skip_iff_and_idempotent ctx0 ctx0 "nvim" stFreshPush [file1] rfl
    (by decide)).2.2 1 (by decide)

/-- Claim C3 counterexample: an existing empty managed directory with no
remote entry — the fresh snapshot equals the empty file list that an
absent entry stands for, yet Push does not skip: it pushes revision 1. -/
theorem cfg_push_no_entry_empty_snapshot_cex :
    stEmptyDirPush.remoteManifest.findEntry "nvim" = none
      ∧ buildCfgFileSnapshot stEmptyDirPush.localDir = []
      ∧ isCfgManifestFilesEqual (buildCfgFileSnapshot stEmptyDirPush.localDir) [] = true
      ∧ (cfgPush ctx0 "nvim" stEmptyDirPush).outcome = .pushed 1
      ∧ (cfgPush ctx0 "nvim" stEmptyDirPush).outcome ≠ .skippedIdentical := by
  exact ⟨rfl, rfl, rfl, by decide, by decide⟩

/-- Claim C8 (corrected): on file lists whose paths are pairwise distinct
(as every directory snapshot and every pushed entry's list is), the
manifest file-list equality returns true exactly when the two lists are
equal as sets of `(path, size, sha256)` triples (list permutation), and it
is symmetric and invariant under permutation of an input; symmetry holds
unconditionally. -/
theorem cfg_files_equal_set_semantics
    (a b a' : List CfgManifestFile)
    (ha : (a.map CfgManifestFile.path).Nodup)
    (hb : (b.map CfgManifestFile.path).Nodup) :
    (isCfgManifestFilesEqual a b = true ↔ a.Perm b)
      ∧ isCfgManifestFilesEqual a b = isCfgManifestFilesEqual b a
      ∧ (a.Perm a' → isCfgManifestFilesEqual a' b = isCfgManifestFilesEqual a b) := by
  refine ⟨files_equal_iff_perm_of_nodup ha hb, isCfgManifestFilesEqual_comm a b, ?_⟩
  intro hp
  have ha' : (a'.map CfgManifestFile.path).Nodup := ((hp.map _).nodup_iff).1 ha
  rw [Bool.eq_iff_iff, files_equal_iff_perm_of_nodup ha' hb,
    files_equal_iff_perm_of_nodup ha hb]
  exact ⟨fun h => hp.trans h, fun h => hp.symm.trans h⟩

theorem cfg_files_equal_set_semantics_witness :
    (isCfgManifestFilesEqual [file2, file1] [file1, file2] = true
        ↔ List.Perm [file2, file1] [file1, file2])
      ∧ isCfgManifestFilesEqual [file2, file1] [file1, file2]
          = isCfgManifestFilesEqual [file1, file2] [file2, file1]
      ∧ (List.Perm [file2, file1] [file1, file2] →
          isCfgManifestFilesEqual [file1, file2] [file1, file2]
            = isCfgManifestFilesEqual [file2, file1] [file1, file2]) :=
  cfg_files_equal_set_semantics [file2, file1] [file1, file2] [file1, file2]
    (by decide) (by decide)

/-- Claim C8 counterexample: two lists that are identical as sets of
`(path, size, sha256)` triples (they are permutations of each other) but
share a duplicated path; the comparison sorts by path only and returns
false, so the claimed equivalence fails for arbitrary file lists. -/
theorem cfg_files_equal_duplicate_path_cex :
    dupA.Perm dupB ∧ isCfgManifestFilesEqual dupA dupB = false := by
  exact ⟨by decide, by decide⟩
